import Mathlib

/-!
Shallow embedding of the Unified Debug Solver
(src/unified-debug-agent/unified_debug_solver.py).

The orchestrator, pipeline and bug splitter are translated from the source;
the five external collaborators (locate, fix, review, patch, index) are
black boxes, modelled as an environment that supplies each call's outcome:
either a parsed JSON result or a raised error (its message string).

Machine-level caveats of the embedding, stated once:
* strings are modelled over their character lists; the Python string
  operations (`strip`, `lower`, `split`, `in`, `re.split`) are reimplemented
  below character by character, assuming ASCII text (Python's Unicode-aware
  whitespace/digit classes beyond ASCII are not modelled);
* `datetime.now()` is modelled by a counter clock threaded through the
  functions; each call returns the current tick;
* JSON numbers are modelled as integers (the fields the control flow reads,
  `search_stats.total_found` and `approved`, are an integer and a boolean
  in the collaborator contract).
-/

/-- Parsed JSON value, the shape of every collaborator payload
(`json.loads` output in the source). An object is its association list
of fields (keys assumed unique, as in a Python dict). -/
inductive JVal where
  | null : JVal
  | bool : Bool → JVal
  | num : Int → JVal
  | str : String → JVal
  | arr : List JVal → JVal
  | obj : List (String × JVal) → JVal

/-- Python truthiness (`bool(v)`) of a JSON value. -/
def pyTruthy : JVal → Bool
  | .null => false
  | .bool b => b
  | .num n => decide (n ≠ 0)
  | .str s => decide (s ≠ "")
  | .arr xs => !xs.isEmpty
  | .obj fs => !fs.isEmpty

/-- Python `d.get(key, default)`: only dicts have `.get`; on any other
value the attribute lookup raises (`AttributeError`). -/
def pyGet (v : JVal) (key : String) (default : JVal) : Except String JVal :=
  match v with
  | .obj fields =>
    match fields.lookup key with
    | some w => .ok w
    | none => .ok default
  | _ => .error "AttributeError: object has no attribute get"

/-- Python `v > 0` on a JSON value: defined for numbers and booleans
(booleans are integers in Python); raises `TypeError` otherwise. -/
def pyGtZero : JVal → Except String Bool
  | .num n => .ok (decide (0 < n))
  | .bool b => .ok b
  | _ => .error "TypeError: unorderable types"

/-! ## BugSplitter: `_analyze_and_separate_bugs` (lines 101-151)

Pure string part first: the heuristic split of a report into bug units. -/

/-- Python `str.strip` whitespace class, ASCII part. -/
def pyIsSpace (c : Char) : Bool :=
  c = ' ' || c = '\t' || c = '\n' || c = '\r' || c = '\x0b' || c = '\x0c'

/-- Python `str.strip()` on a character list: drop whitespace from both ends. -/
def pyStrip (l : List Char) : List Char :=
  List.rdropWhile pyIsSpace (List.dropWhile pyIsSpace l)

/-- Python `str.lower()` (ASCII). -/
def pyLower (l : List Char) : List Char :=
  l.map Char.toLower

/-- Python `sub in s`: some suffix of `s` has `sub` as a prefix. -/
def containsSub : List Char → List Char → Bool
  | [], sub => decide (sub = [])
  | c :: rest, sub => List.isPrefixOf sub (c :: rest) || containsSub rest sub

/-- Python `s.split(sep)` for a non-empty `sep`: split at each
non-overlapping occurrence, left to right. `fuel` bounds the recursion;
`s.length + 1` is always enough. The accumulator holds the current
fragment reversed. -/
def pySplitGo (sep : List Char) : Nat → List Char → List Char → List (List Char)
  | 0, l, acc => [acc.reverse ++ l]
  | fuel + 1, l, acc =>
    if List.isPrefixOf sep l ∧ sep ≠ [] then
      acc.reverse :: pySplitGo sep fuel (l.drop sep.length) []
    else
      match l with
      | [] => [acc.reverse]
      | c :: rest => pySplitGo sep fuel rest (c :: acc)

def pySplitOn (sep l : List Char) : List (List Char) :=
  pySplitGo sep (l.length + 1) l []

/-- The bullet characters of the source's split pattern `[-*•]`. -/
def bulletChar (c : Char) : Bool :=
  c = '-' || c = '*' || c = '•'

/-- Length of the leftmost match of the source's split pattern
`\n?\s*(?:\d+\.|\s*[-*•]\s*)` when it matches at the head of `l`.
Since `\n` is whitespace and the character classes `\s`, `\d`, `[-*•]`
are pairwise disjoint, the greedy match consumes: the maximal whitespace
run, then either a maximal digit run followed by `'.'`, or one bullet
character followed by a maximal whitespace run; no backtracking can
succeed otherwise. Every match is non-empty. -/
def reMatchLen (l : List Char) : Option Nat :=
  let ws := l.takeWhile pyIsSpace
  let rest := l.drop ws.length
  let ds := rest.takeWhile Char.isDigit
  if ds.length > 0 ∧ (rest.drop ds.length).head? = some '.' then
    some (ws.length + ds.length + 1)
  else
    match rest with
    | c :: rest2 =>
      if bulletChar c then some (ws.length + 1 + (rest2.takeWhile pyIsSpace).length)
      else none
    | [] => none

/-- Python `re.split(r'\n?\s*(?:\d+\.|\s*[-*•]\s*)', s)`: scan left to
right, cut at every match. `fuel` bounds the recursion; `s.length + 1`
is always enough (every match consumes at least one character). -/
def reSplitGo : Nat → List Char → List Char → List (List Char)
  | 0, l, acc => [acc.reverse ++ l]
  | fuel + 1, l, acc =>
    match l with
    | [] => [acc.reverse]
    | c :: rest =>
      match reMatchLen (c :: rest) with
      | some n => acc.reverse :: reSplitGo fuel ((c :: rest).drop n) []
      | none => reSplitGo fuel rest (c :: acc)

def reSplit (l : List Char) : List (List Char) :=
  reSplitGo (l.length + 1) l []

/-- Slice `separators[:4]` of the source, in order. -/
def conjSeps : List (List Char) :=
  [" and ".data, " also ".data, " additionally ".data, " furthermore ".data]

/-- Slice `separators[4:8]` of the source: the slice the numbered-list check
scans. (The source's slicing leaves `"5."` to the bullet slice below;
the union of the two groups is what §4.1 describes.) -/
def numberedSeps : List (List Char) :=
  ["1.".data, "2.".data, "3.".data, "4.".data]

/-- Slice `separators[8:]` of the source: the slice the bullet check scans. -/
def bulletSeps : List (List Char) :=
  ["5.".data, "- ".data, "* ".data, "• ".data]

/-- The function `_analyze_and_separate_bugs`, string part (lines 110-151): trim the
report, detect markers, split by the first applicable rule, then drop
every fragment whose trimmed length is ≤ 10. In the conjunction branch
the source splits the *lower-cased* text. The `none` arm of the `find?`
is unreachable when `hasMultiple` holds and mirrors the source's initial
`bugs = []`. -/
def splitBugs (report : String) : List String :=
  let current := pyStrip report.data
  let lower := pyLower current
  let hasMultiple := conjSeps.any (fun sep => containsSub lower sep)
  let hasNumbered := numberedSeps.any (fun sep => containsSub current sep)
  let hasBullets := bulletSeps.any (fun sep => containsSub current sep)
  let bugs : List (List Char) :=
    if hasNumbered || hasBullets then
      ((reSplit current).map pyStrip).filter (fun p => decide (p ≠ []))
    else if hasMultiple then
      match conjSeps.find? (fun sep => containsSub lower sep) with
      | some sep => ((pySplitOn sep lower).map pyStrip).filter (fun p => decide (p ≠ []))
      | none => []
    else [current]
  (bugs.filter (fun b => decide (10 < (pyStrip b).length))).map (fun b => String.mk b)

/-- Trimmed length of a string, as the source's post-filter measures it. -/
def trimmedLen (s : String) : Nat :=
  (pyStrip s.data).length

/-! ## Facts about the splitter (claim C1) -/

theorem dropWhile_rdropWhile_dropWhile {α : Type} (p : α → Bool) (l : List α) :
    List.dropWhile p (List.rdropWhile p (List.dropWhile p l))
      = List.rdropWhile p (List.dropWhile p l) := by
  set A := List.dropWhile p l with hA
  have hAself : List.dropWhile p A = A := List.dropWhile_idempotent p l
  rw [List.dropWhile_eq_self_iff]
  intro hl
  have hpre : List.rdropWhile p A <+: A := List.rdropWhile_prefix p A
  have h0 : 0 < A.length := lt_of_lt_of_le hl hpre.length_le
  have h                     := List.dropWhile_eq_self_iff.mp hAself h0
  have hget := hpre.getElem (n := 0) hl
  simpa [List.get_eq_getElem, hget] using h

theorem pyStrip_idem (l : List Char) : pyStrip (pyStrip l) = pyStrip l := by
  unfold pyStrip
  rw [dropWhile_rdropWhile_dropWhile, List.rdropWhile_idempotent]

example : splitBugs "1. Login fails\n2. Logout crashes" = ["Login fails", "Logout crashes"] := by decide
example : splitBugs "short" = [] := by decide

/-- C1 counterexample: on the input "short" (no split rule applies and the
trimmed input has length 5 ≤ 10) the splitter returns the EMPTY sequence:
the claimed fallback to a single unit does not survive the post-filter,
so BugSplitter does not always return a non-empty sequence. -/
theorem C1_counterexample : splitBugs "short" = [] := by decide

/-- C1 (amended): every unit returned by BugSplitter has trimmed length
strictly greater than 10; and when no split rule applies (no numbered,
bullet or conjunction marker occurs) and the trimmed input has length
greater than 10, the result is exactly the single unit equal to the
trimmed input. (The sequence can be empty — see the counterexample —
exactly when every candidate fragment has trimmed length at most 10.) -/
theorem C1_splitBugs_amended (report : String) :
    (∀ u ∈ splitBugs report, 10 < trimmedLen u) ∧
    ((∀ sep ∈ numberedSeps, containsSub (pyStrip report.data) sep = false) →
     (∀ sep ∈ bulletSeps, containsSub (pyStrip report.data) sep = false) →
     (∀ sep ∈ conjSeps, containsSub (pyLower (pyStrip report.data)) sep = false) →
     10 < trimmedLen report →
     splitBugs report = [String.mk (pyStrip report.data)]) := by
  constructor
  · intro u hu
    simp only [splitBugs, List.mem_map, List.mem_filter] at hu
    obtain ⟨b, ⟨hb, hq⟩, rfl⟩ := hu
    simpa [trimmedLen] using hq
  · intro hnum hbul hconj hlen
    have hnum2 : numberedSeps.any (fun sep => containsSub (pyStrip report.data) sep) = false := by
      simp only [List.any_eq_false]
      intro sep hsep
      simpa using hnum sep hsep
    have hbul2 : bulletSeps.any (fun sep => containsSub (pyStrip report.data) sep) = false := by
      simp only [List.any_eq_false]
      intro sep hsep
      simpa using hbul sep hsep
    have hconj2 : conjSeps.any
        (fun sep => containsSub (pyLower (pyStrip report.data)) sep) = false := by
      simp only [List.any_eq_false]
      intro sep hsep
      simpa using hconj sep hsep
    have hkeep : decide (10 < (pyStrip (pyStrip report.data)).length) = true := by
      rw [pyStrip_idem]
      exact decide_eq_true hlen
    simp only [splitBugs, hnum2, hbul2, hconj2, Bool.or_self, Bool.false_eq_true,
      if_false, List.filter, hkeep, List.map]

/-- C1 witness: the amended theorem applied at a concrete marker-free
input whose trimmed length exceeds 10. -/
theorem C1_witness :
    (∀ u ∈ splitBugs "   a plain single bug description   ", 10 < trimmedLen u) ∧
    splitBugs "   a plain single bug description   "
      = [String.mk (pyStrip "   a plain single bug description   ".data)] := by
  have h := C1_splitBugs_amended "   a plain single bug description   "
  exact ⟨h.1, h.2 (by decide) (by decide) (by decide) (by decide)⟩

/-! ## Data model: StepRecord, BugUnitResult, WorkflowState (§3)

Field for field the dictionaries built by the source; fields that the
source only adds on some paths are `Option`s, `none` meaning "key absent".
Timestamps are ticks of the counter clock. -/

structure StepRecord where
  step_name : String
  start_time : Nat
  end_time : Option Nat
  status : String
  result : Option JVal
  error : Option String
  bugs_detected : Option Nat

structure BugUnitResult where
  bug_index : Nat
  bug_description : String
  repository_name : Option String
  steps : List StepRecord
  status : String
  error : Option String

structure WorkflowState where
  workflow_id : String
  bug_description : Option String
  repository_name : Option String
  auto_edit_mode : Bool
  start_time : Nat
  steps : List StepRecord
  status : String
  tools_used : List String
  total_bugs : Option Nat
  bugs_processed : Option Nat
  results : Option (List BugUnitResult)
  end_time : Option Nat
  error : Option String

/-- Outcomes of the four per-bug collaborator calls for one bug unit.
Each field is what the corresponding black-box call would produce when
reached: a parsed result (`ok`) or a raised error's text (`error`).
For the locator this already includes `json.loads` of its string
(a parse failure is one more way `_call_bug_locator_tool` raises). -/
structure ToolEnv where
  locate : Except String JVal
  fix : Except String JVal
  review : Except String JVal
  patch : Except String JVal

/-- Common shape of `_call_bug_locator_tool` / `_call_codestral_tool` /
`_call_human_review_tool` / `_call_git_patch_tool` (lines 205-322): append
a StepRecord, mark it completed with the result, or failed with the error
text and re-raise. Returns the call outcome, the grown step list and the
advanced clock. -/
def callTool (name : String) (outcome : Except String JVal)
    (steps : List StepRecord) (c : Nat) : Except String JVal × List StepRecord × Nat :=
  match outcome with
  | .ok r =>
    let step : StepRecord :=
      { step_name := name, start_time := c, end_time := some (c + 1),
        status := "completed", result := some r, error := none, bugs_detected := none }
    (.ok r, steps ++ [step], c + 2)
  | .error e =>
    let step : StepRecord :=
      { step_name := name, start_time := c, end_time := some (c + 1),
        status := "failed", result := none, error := some e, bugs_detected := none }
    (.error e, steps ++ [step], c + 2)

/-- Line 177: `localization_result.get("search_stats", {}).get("total_found", 0)`
followed by the `> 0` comparison; any of the three operations can raise. -/
def pyTotalFoundPos (locRes : JVal) : Except String Bool :=
  match pyGet locRes "search_stats" (JVal.obj []) with
  | .error e => .error e
  | .ok stats =>
    match pyGet stats "total_found" (JVal.num 0) with
    | .error e => .error e
    | .ok tf => pyGtZero tf

/-- Line 186: `review_result.get("approved", False)` under Python
truthiness (the `not ...` is applied at the use site). -/
def pyApproved (revRes : JVal) : Except String Bool :=
  match pyGet revRes "approved" (JVal.bool false) with
  | .error e => .error e
  | .ok v => .ok (pyTruthy v)

/-- The function `_process_bug_with_tools` (lines 159-203). Returns the BugUnitResult,
the names appended to the workflow's `tools_used` (in call order), and the
advanced clock. The generated fix payload itself is not threaded further
because the downstream calls are black boxes whose outcomes the
environment already fixes. -/
def process_bug_with_tools (env : ToolEnv) (bug : String) (repo : Option String)
    (auto_edit_mode : Bool) (bug_index : Nat) (c : Nat) :
    BugUnitResult × List String × Nat :=
  let base : BugUnitResult :=
    { bug_index := bug_index, bug_description := bug, repository_name := repo,
      steps := [], status := "in_progress", error := none }
  match callTool "bug_localization" env.locate [] c with
  | (.error e, steps1, c1) =>
    ({ base with steps := steps1, status := "failed", error := some e }, [], c1)
  | (.ok locRes, steps1, c1) =>
    match pyTotalFoundPos locRes with
    | .error e =>
      ({ base with steps := steps1, status := "failed", error := some e },
       ["bug_locator_tool"], c1)
    | .ok false =>
      ({ base with steps := steps1, status := "no_relevant_code_found" },
       ["bug_locator_tool"], c1)
    | .ok true =>
      match callTool "code_fix_generation" env.fix steps1 c1 with
      | (.error e, steps2, c2) =>
        ({ base with steps := steps2, status := "failed", error := some e },
         ["bug_locator_tool"], c2)
      | (.ok _, steps2, c2) =>
        if auto_edit_mode then
          match callTool "patch_application" env.patch steps2 c2 with
          | (.error e, steps3, c3) =>
            ({ base with steps := steps3, status := "failed", error := some e },
             ["bug_locator_tool", "codestral_tool"], c3)
          | (.ok _, steps3, c3) =>
            ({ base with steps := steps3, status := "completed" },
             ["bug_locator_tool", "codestral_tool", "git_patch_tool"], c3)
        else
          match callTool "human_review" env.review steps2 c2 with
          | (.error e, steps3, c3) =>
            ({ base with steps := steps3, status := "failed", error := some e },
             ["bug_locator_tool", "codestral_tool"], c3)
          | (.ok revRes, steps3, c3) =>
            match pyApproved revRes with
            | .error e =>
              ({ base with steps := steps3, status := "failed", error := some e },
               ["bug_locator_tool", "codestral_tool", "human_review_tool"], c3)
            | .ok false =>
              ({ base with steps := steps3, status := "rejected_by_human" },
               ["bug_locator_tool", "codestral_tool", "human_review_tool"], c3)
            | .ok true =>
              match callTool "patch_application" env.patch steps3 c3 with
              | (.error e, steps4, c4) =>
                ({ base with steps := steps4, status := "failed", error := some e },
                 ["bug_locator_tool", "codestral_tool", "human_review_tool"], c4)
              | (.ok _, steps4, c4) =>
                ({ base with steps := steps4, status := "completed" },
                 ["bug_locator_tool", "codestral_tool", "human_review_tool",
                  "git_patch_tool"], c4)

/-! ## Orchestrator: `debug_repository_issue` (lines 35-99), `index_repository`
(lines 324-341), instance state (lines 28-33, 343-350). -/

/-- The error Python raises at line 119 (`bug_description.strip()`) when the
report is not a string (`None`): the one site at which the splitting step
can raise in the source, exercising the orchestrator's outer handler. -/
def noneStripError : String :=
  "AttributeError: NoneType object has no attribute strip"

/-- The function `_analyze_and_separate_bugs` (lines 101-157) including its StepRecord
bookkeeping: on a non-string report the step is marked failed and the
error re-raised; otherwise the heuristic split runs and the step is
completed with the detected count. -/
def analyze_and_separate_bugs (bug_description : Option String) (c : Nat) :
    Except String (List String) × StepRecord × Nat :=
  match bug_description with
  | none =>
    let step : StepRecord :=
      { step_name := "bug_analysis", start_time := c, end_time := some (c + 1),
        status := "failed", result := none, error := some noneStripError,
        bugs_detected := none }
    (.error noneStripError, step, c + 2)
  | some s =>
    let bugs := splitBugs s
    let step : StepRecord :=
      { step_name := "bug_analysis", start_time := c, end_time := some (c + 1),
        status := "completed", result := none, error := none,
        bugs_detected := some bugs.length }
    (.ok bugs, step, c + 2)

/-- The sequential per-unit loop (lines 69-81): process every detected bug
unit in order with 1-based indices, concatenating the `tools_used` names.
`envf i` is the collaborator environment the `i`-th unit's calls hit. -/
def runUnits (envf : Nat → ToolEnv) (repo : Option String) (auto_edit_mode : Bool) :
    List String → Nat → Nat → List BugUnitResult × List String × Nat
  | [], _, c => ([], [], c)
  | bug :: rest, i, c =>
    let p := process_bug_with_tools (envf i) bug repo auto_edit_mode i c
    let q := runUnits envf repo auto_edit_mode rest (i + 1) p.2.2
    (p.1 :: q.1, p.2.1 ++ q.2.1, q.2.2)

/-- The `UnifiedDebugSolver` instance state: the process-lifetime session
id and the append-only conversation history (lines 29-31). -/
structure Solver where
  session_id : String
  conversation_history : List WorkflowState

/-- Line 48: `f"unified_debug_{self.session_id}_{len(self.conversation_history)}"`. -/
def mkWorkflowId (sid : String) (n : Nat) : String :=
  "unified_debug_" ++ sid ++ "_" ++ Nat.repr n

/-- The method `debug_repository_issue` (lines 35-99). Returns the workflow record
(the content the source serializes with `json.dumps`), the updated solver
and the advanced clock. On the success path the record is appended to the
conversation history; the exception path returns without appending. -/
def debug_repository_issue (envf : Nat → ToolEnv) (solver : Solver)
    (bug_description : Option String) (repository_name : Option String)
    (auto_edit_mode : Bool) (c : Nat) : WorkflowState × Solver × Nat :=
  let ws0 : WorkflowState :=
    { workflow_id := mkWorkflowId solver.session_id solver.conversation_history.length,
      bug_description := bug_description, repository_name := repository_name,
      auto_edit_mode := auto_edit_mode, start_time := c, steps := [],
      status := "in_progress", tools_used := [], total_bugs := none,
      bugs_processed := none, results := none, end_time := none, error := none }
  match analyze_and_separate_bugs bug_description (c + 1) with
  | (.error e, step, c1) =>
    let ws : WorkflowState :=
      { ws0 with
        steps := [step], status := "failed", error := some e,
        end_time := some c1 }
    (ws, solver, c1 + 1)
  | (.ok bugs, step, c1) =>
    let p := runUnits envf repository_name auto_edit_mode bugs 1 c1
    let ws : WorkflowState :=
      { ws0 with
        steps := [step], total_bugs := some bugs.length,
        tools_used := p.2.1,
        bugs_processed := if bugs.isEmpty then none else some bugs.length,
        status := "completed", results := some p.1, end_time := some p.2.2 }
    (ws, { solver with conversation_history := solver.conversation_history ++ [ws] },
     p.2.2 + 1)

/-- The method `index_repository` (lines 324-341): `outcome` is the indexer call's
result or raised error; every error is caught and turned into the
structured failure object. The returned JSON value is the content the
source serializes with `json.dumps`. -/
def index_repository (outcome : Except String JVal) (c : Nat) : JVal :=
  match outcome with
  | .ok r => r
  | .error e =>
    JVal.obj [("success", JVal.bool false), ("error", JVal.str e),
      ("timestamp", JVal.str (Nat.repr c))]

/-! ## Per-unit pipeline invariants (claims C2-C6, C10) -/

/-- The canonical stage order a unit's step list follows; in auto-edit
mode the review stage is skipped entirely. -/
def stageOrder (auto_edit_mode : Bool) : List String :=
  if auto_edit_mode then
    ["bug_localization", "code_fix_generation", "patch_application"]
  else
    ["bug_localization", "code_fix_generation", "human_review", "patch_application"]

/-- Exhaustive structural facts about one pipeline run, proved by case
analysis over every collaborator outcome: the step names form a prefix of
the (auto-edit dependent) stage order; every step except possibly the
last completed; the final status is terminal; and a failed step implies
the unit failed with that step's error text, that step being the last. -/
theorem processBug_invariants (env : ToolEnv) (bug : String) (repo : Option String)
    (auto : Bool) (idx : Nat) (c : Nat) :
    ((process_bug_with_tools env bug repo auto idx c).1.steps.map StepRecord.step_name
        <+: stageOrder auto) ∧
    (∀ s ∈ (process_bug_with_tools env bug repo auto idx c).1.steps.dropLast,
        s.status = "completed") ∧
    ((process_bug_with_tools env bug repo auto idx c).1.status = "completed" ∨
     (process_bug_with_tools env bug repo auto idx c).1.status = "no_relevant_code_found" ∨
     (process_bug_with_tools env bug repo auto idx c).1.status = "rejected_by_human" ∨
     (process_bug_with_tools env bug repo auto idx c).1.status = "failed") ∧
    (∀ s ∈ (process_bug_with_tools env bug repo auto idx c).1.steps, s.status = "failed" →
        (process_bug_with_tools env bug repo auto idx c).1.status = "failed" ∧
        (process_bug_with_tools env bug repo auto idx c).1.error = s.error ∧
        (process_bug_with_tools env bug repo auto idx c).1.steps.getLast? = some s) := by
  obtain ⟨loc, fixo, revo, patcho⟩ := env
  cases auto <;> rcases loc with e | locRes
  case false.error =>
    refine ⟨?_, ?_, ?_, ?_⟩ <;> simp [process_bug_with_tools, callTool, stageOrder]
  case true.error =>
    refine ⟨?_, ?_, ?_, ?_⟩ <;> simp [process_bug_with_tools, callTool, stageOrder]
  case false.ok =>
    rcases htf : pyTotalFoundPos locRes with e | b
    · refine ⟨?_, ?_, ?_, ?_⟩ <;> simp [process_bug_with_tools, callTool, stageOrder, htf]
    · cases b
      · refine ⟨?_, ?_, ?_, ?_⟩ <;> simp [process_bug_with_tools, callTool, stageOrder, htf]
      · rcases fixo with e | fixRes
        · refine ⟨?_, ?_, ?_, ?_⟩ <;>
            simp [process_bug_with_tools, callTool, stageOrder, htf]
        · rcases revo with e | revRes
          · refine ⟨?_, ?_, ?_, ?_⟩ <;>
              simp [process_bug_with_tools, callTool, stageOrder, htf]
          · rcases hap : pyApproved revRes with e | b2
            · refine ⟨?_, ?_, ?_, ?_⟩ <;>
                simp [process_bug_with_tools, callTool, stageOrder, htf, hap]
            · cases b2
              · refine ⟨?_, ?_, ?_, ?_⟩ <;>
                  simp [process_bug_with_tools, callTool, stageOrder, htf, hap]
              · rcases patcho with e | patchRes <;> refine ⟨?_, ?_, ?_, ?_⟩ <;>
                  simp [process_bug_with_tools, callTool, stageOrder, htf, hap]
  case true.ok =>
    rcases htf : pyTotalFoundPos locRes with e | b
    · refine ⟨?_, ?_, ?_, ?_⟩ <;> simp [process_bug_with_tools, callTool, stageOrder, htf]
    · cases b
      · refine ⟨?_, ?_, ?_, ?_⟩ <;> simp [process_bug_with_tools, callTool, stageOrder, htf]
      · rcases fixo with e | fixRes
        · refine ⟨?_, ?_, ?_, ?_⟩ <;>
            simp [process_bug_with_tools, callTool, stageOrder, htf]
        · rcases patcho with e | patchRes <;> refine ⟨?_, ?_, ?_, ?_⟩ <;>
            simp [process_bug_with_tools, callTool, stageOrder, htf]

/-- A concrete environment: locate finds one match, fix and patch succeed,
review (when reached) approves. -/
def envAllOk : ToolEnv :=
  { locate := .ok (JVal.obj [("search_stats", JVal.obj [("total_found", JVal.num 1)])]),
    fix := .ok (JVal.obj [("fix", JVal.str "patch text")]),
    review := .ok (JVal.obj [("approved", JVal.bool true)]),
    patch := .ok (JVal.obj [("applied", JVal.bool true)]) }

/-- C2 counterexample: with autoEditMode = true and every call succeeding,
the unit's step list is [bug_localization, code_fix_generation,
patch_application], which is NOT a prefix of the canonical four-stage
order — the human_review element is missing from the middle. -/
theorem C2_counterexample :
    ¬ ((process_bug_with_tools envAllOk "bug" none true 1 0).1.steps.map
          StepRecord.step_name
        <+: ["bug_localization", "code_fix_generation", "human_review",
             "patch_application"]) := by decide

/-- C2 (amended): a bug unit's step-name list is a prefix of the stage
order with human_review removed when autoEditMode is true (and of the
full canonical order when it is false), and every step before the last
recorded one completed successfully. -/
theorem C2_step_list_amended (env : ToolEnv) (bug : String) (repo : Option String)
    (auto : Bool) (idx : Nat) (c : Nat) :
    ((process_bug_with_tools env bug repo auto idx c).1.steps.map StepRecord.step_name
        <+: stageOrder auto) ∧
    (∀ s ∈ (process_bug_with_tools env bug repo auto idx c).1.steps.dropLast,
        s.status = "completed") :=
  ⟨(processBug_invariants env bug repo auto idx c).1,
   (processBug_invariants env bug repo auto idx c).2.1⟩

/-- C2 witness: the amended statement at a concrete fully successful
non-auto-edit run. -/
theorem C2_witness :
    ((process_bug_with_tools envAllOk "bug" none false 1 0).1.steps.map
        StepRecord.step_name <+: stageOrder false) ∧
    (∀ s ∈ (process_bug_with_tools envAllOk "bug" none false 1 0).1.steps.dropLast,
        s.status = "completed") :=
  C2_step_list_amended envAllOk "bug" none false 1 0

/-- C3: if the locate call succeeds and its result's
`search_stats.total_found` is 0, the unit's final status is exactly
no_relevant_code_found and no fix, review or patch StepRecord exists. -/
theorem C3_no_relevant_code (env : ToolEnv) (bug : String) (repo : Option String)
    (auto : Bool) (idx : Nat) (c : Nat) (fs gs : List (String × JVal))
    (hloc : env.locate = .ok (JVal.obj fs))
    (hstats : fs.lookup "search_stats" = some (JVal.obj gs))
    (htf : gs.lookup "total_found" = some (JVal.num 0)) :
    (process_bug_with_tools env bug repo auto idx c).1.status = "no_relevant_code_found" ∧
    (∀ s ∈ (process_bug_with_tools env bug repo auto idx c).1.steps,
        s.step_name ≠ "code_fix_generation" ∧ s.step_name ≠ "human_review" ∧
        s.step_name ≠ "patch_application") := by
  obtain ⟨loc, fixo, revo, patcho⟩ := env
  simp only at hloc
  subst hloc
  have htfp : pyTotalFoundPos (JVal.obj fs) = .ok false := by
    simp [pyTotalFoundPos, pyGet, hstats, htf, pyGtZero]
  refine ⟨?_, ?_⟩ <;> simp [process_bug_with_tools, callTool, htfp]

/-- A concrete environment whose locator reports zero matches; the later
tools would fail if they were (wrongly) reached. -/
def envNoCode : ToolEnv :=
  { locate := .ok (JVal.obj [("search_stats", JVal.obj [("total_found", JVal.num 0)])]),
    fix := .error "unreached", review := .error "unreached",
    patch := .error "unreached" }

/-- C3 witness: the theorem applied at the concrete zero-match locator. -/
theorem C3_witness :
    (process_bug_with_tools envNoCode "bug" none false 1 0).1.status
        = "no_relevant_code_found" ∧
    (∀ s ∈ (process_bug_with_tools envNoCode "bug" none false 1 0).1.steps,
        s.step_name ≠ "code_fix_generation" ∧ s.step_name ≠ "human_review" ∧
        s.step_name ≠ "patch_application") :=
  C3_no_relevant_code envNoCode "bug" none false 1 0 _ _ rfl rfl rfl

/-- C4: with autoEditMode = false, locate finding code, fix generation
succeeding and the review result carrying `approved: false`, the unit's
final status is rejected_by_human and no patch_application StepRecord
exists. -/
theorem C4_rejected_by_human (env : ToolEnv) (bug : String) (repo : Option String)
    (idx : Nat) (c : Nat) (fs gs rs : List (String × JVal)) (n : Int) (f : JVal)
    (hloc : env.locate = .ok (JVal.obj fs))
    (hstats : fs.lookup "search_stats" = some (JVal.obj gs))
    (htf : gs.lookup "total_found" = some (JVal.num n)) (hn : 0 < n)
    (hfix : env.fix = .ok f)
    (hrev : env.review = .ok (JVal.obj rs))
    (happ : rs.lookup "approved" = some (JVal.bool false)) :
    (process_bug_with_tools env bug repo false idx c).1.status = "rejected_by_human" ∧
    (∀ s ∈ (process_bug_with_tools env bug repo false idx c).1.steps,
        s.step_name ≠ "patch_application") := by
  obtain ⟨loc, fixo, revo, patcho⟩ := env
  simp only at hloc hfix hrev
  subst hloc; subst hfix; subst hrev
  have htfp : pyTotalFoundPos (JVal.obj fs) = .ok true := by
    simp [pyTotalFoundPos, pyGet, hstats, htf, pyGtZero, hn]
  have hap : pyApproved (JVal.obj rs) = .ok false := by
    simp [pyApproved, pyGet, happ, pyTruthy]
  refine ⟨?_, ?_⟩ <;> simp [process_bug_with_tools, callTool, htfp, hap]

/-- A concrete non-auto-edit run in which the human rejects the fix; the
patch tool would succeed if it were (wrongly) reached. -/
def envRejected : ToolEnv :=
  { locate := .ok (JVal.obj [("search_stats", JVal.obj [("total_found", JVal.num 2)])]),
    fix := .ok (JVal.str "candidate fix"),
    review := .ok (JVal.obj [("approved", JVal.bool false)]),
    patch := .ok (JVal.obj [("applied", JVal.bool true)]) }

/-- C4 witness: the theorem applied at the concrete rejecting reviewer. -/
theorem C4_witness :
    (process_bug_with_tools envRejected "bug" none false 1 0).1.status
        = "rejected_by_human" ∧
    (∀ s ∈ (process_bug_with_tools envRejected "bug" none false 1 0).1.steps,
        s.step_name ≠ "patch_application") :=
  C4_rejected_by_human envRejected "bug" none 1 0 _ _ _ 2 _ rfl rfl rfl
    (by decide) rfl rfl rfl

/-- C5: with autoEditMode = true no human_review StepRecord is ever
produced, whatever the collaborators do; and when locate finds code and
the fix and patch calls succeed, the unit's final status is completed. -/
theorem C5_auto_edit_mode (env : ToolEnv) (bug : String) (repo : Option String)
    (idx : Nat) (c : Nat) :
    (∀ s ∈ (process_bug_with_tools env bug repo true idx c).1.steps,
        s.step_name ≠ "human_review") ∧
    (∀ (fs gs : List (String × JVal)) (n : Int) (f p : JVal),
        env.locate = .ok (JVal.obj fs) →
        fs.lookup "search_stats" = some (JVal.obj gs) →
        gs.lookup "total_found" = some (JVal.num n) → 0 < n →
        env.fix = .ok f → env.patch = .ok p →
        (process_bug_with_tools env bug repo true idx c).1.status = "completed") := by
  constructor
  · intro s hs
    have h1 := (processBug_invariants env bug repo true idx c).1
    have hmem : s.step_name ∈ stageOrder true :=
      h1.subset (List.mem_map_of_mem StepRecord.step_name hs)
    simp only [stageOrder, if_true, List.mem_cons, List.not_mem_nil, or_false] at hmem
    rcases hmem with h | h | h <;> simp [h]
  · intro fs gs n f p hloc hstats htf hn hfix hpatch
    obtain ⟨loc, fixo, revo, patcho⟩ := env
    simp only at hloc hfix hpatch
    subst hloc; subst hfix; subst hpatch
    have htfp : pyTotalFoundPos (JVal.obj fs) = .ok true := by
      simp [pyTotalFoundPos, pyGet, hstats, htf, pyGtZero, hn]
    simp [process_bug_with_tools, callTool, htfp]

/-- C5 witness: the theorem at the concrete all-succeeding environment,
run in auto-edit mode. -/
theorem C5_witness :
    (∀ s ∈ (process_bug_with_tools envAllOk "bug" none true 1 0).1.steps,
        s.step_name ≠ "human_review") ∧
    (process_bug_with_tools envAllOk "bug" none true 1 0).1.status = "completed" := by
  have h := C5_auto_edit_mode envAllOk "bug" none 1 0
  exact ⟨h.1, h.2 _ _ 1 _ _ rfl rfl rfl (by decide) rfl rfl⟩

/-- C10: with autoEditMode = false, when the review call succeeds but its
result carries no `approved` field — or carries a value the code's
`not review_result.get("approved", False)` test does not treat as true
(a falsy value; under the §6 collaborator contract `approved` is a
boolean, so "not true" means absent or `false`) — the unit is treated
exactly as an explicit rejection: status rejected_by_human and no
patch_application StepRecord. -/
theorem C10_missing_approved (env : ToolEnv) (bug : String) (repo : Option String)
    (idx : Nat) (c : Nat) (fs gs rs : List (String × JVal)) (n : Int) (f : JVal)
    (hloc : env.locate = .ok (JVal.obj fs))
    (hstats : fs.lookup "search_stats" = some (JVal.obj gs))
    (htf : gs.lookup "total_found" = some (JVal.num n)) (hn : 0 < n)
    (hfix : env.fix = .ok f)
    (hrev : env.review = .ok (JVal.obj rs))
    (happ : ∀ v, rs.lookup "approved" = some v → pyTruthy v = false) :
    (process_bug_with_tools env bug repo false idx c).1.status = "rejected_by_human" ∧
    (∀ s ∈ (process_bug_with_tools env bug repo false idx c).1.steps,
        s.step_name ≠ "patch_application") := by
  obtain ⟨loc, fixo, revo, patcho⟩ := env
  simp only at hloc hfix hrev
  subst hloc; subst hfix; subst hrev
  have htfp : pyTotalFoundPos (JVal.obj fs) = .ok true := by
    simp [pyTotalFoundPos, pyGet, hstats, htf, pyGtZero, hn]
  have hap : pyApproved (JVal.obj rs) = .ok false := by
    cases hv : rs.lookup "approved" with
    | none => simp [pyApproved, pyGet, hv, pyTruthy]
    | some v => simp [pyApproved, pyGet, hv, happ v hv]
  refine ⟨?_, ?_⟩ <;> simp [process_bug_with_tools, callTool, htfp, hap]

/-- A reviewer whose successful reply lacks the `approved` key entirely. -/
def envNoApproved : ToolEnv :=
  { locate := .ok (JVal.obj [("search_stats", JVal.obj [("total_found", JVal.num 1)])]),
    fix := .ok (JVal.str "candidate fix"),
    review := .ok (JVal.obj [("comment", JVal.str "looks odd")]),
    patch := .ok (JVal.obj [("applied", JVal.bool true)]) }

/-- C10 witness: the theorem at the concrete reviewer reply without an
`approved` field. -/
theorem C10_witness :
    (process_bug_with_tools envNoApproved "bug" none false 1 0).1.status
        = "rejected_by_human" ∧
    (∀ s ∈ (process_bug_with_tools envNoApproved "bug" none false 1 0).1.steps,
        s.step_name ≠ "patch_application") :=
  C10_missing_approved envNoApproved "bug" none 1 0 _ _ _ 1 _ rfl rfl rfl
    (by decide) rfl rfl (by intro v hv; simp [List.lookup] at hv)

/-! ## Workflow-level theorems (claims C6, C7) -/

theorem runUnits_length (envf : Nat → ToolEnv) (repo : Option String) (auto : Bool)
    (units : List String) : ∀ (i c : Nat),
    (runUnits envf repo auto units i c).1.length = units.length := by
  induction units with
  | nil => intro i c; simp [runUnits]
  | cons bug rest ih => intro i c; simp [runUnits, ih]

theorem runUnits_mem (envf : Nat → ToolEnv) (repo : Option String) (auto : Bool)
    (units : List String) : ∀ (i c : Nat) (r : BugUnitResult),
    r ∈ (runUnits envf repo auto units i c).1 →
    ∃ env bug j c0, r = (process_bug_with_tools env bug repo auto j c0).1 := by
  induction units with
  | nil => intro i c r hr; simp [runUnits] at hr
  | cons bug rest ih =>
    intro i c r hr
    simp only [runUnits, List.mem_cons] at hr
    rcases hr with h | h
    · exact ⟨envf i, bug, i, c, h⟩
    · exact ih (i + 1) _ r h

/-- C6: in a workflow over any report, every detected unit is processed
(one result per unit, in order) and reaches a terminal status of its own;
and whenever a unit's capability call failed (a failed StepRecord was
recorded), that unit's status is failed, the original error text is
preserved on the unit record, and the failed step is the unit's last —
no later stage was attempted. Units do not disturb each other: the
remaining results still carry terminal statuses. -/
theorem C6_capability_failure_isolation (envf : Nat → ToolEnv) (solver : Solver)
    (desc : String) (repo : Option String) (auto : Bool) (c : Nat) :
    (((debug_repository_issue envf solver (some desc) repo auto c).1.results.getD
        []).length = (splitBugs desc).length) ∧
    (∀ r ∈ (debug_repository_issue envf solver (some desc) repo auto c).1.results.getD
        [],
      (r.status = "completed" ∨ r.status = "no_relevant_code_found" ∨
       r.status = "rejected_by_human" ∨ r.status = "failed") ∧
      (∀ s ∈ r.steps, s.status = "failed" →
        r.status = "failed" ∧ r.error = s.error ∧ r.steps.getLast? = some s)) := by
  constructor
  · simp only [debug_repository_issue, analyze_and_separate_bugs, Option.getD_some]
    exact runUnits_length envf repo auto (splitBugs desc) 1 (c + 3)
  · intro r hr
    simp only [debug_repository_issue, analyze_and_separate_bugs,
      Option.getD_some] at hr
    obtain ⟨env, bug, j, c0, rfl⟩ :=
      runUnits_mem envf repo auto (splitBugs desc) 1 (c + 3) r hr
    have h := processBug_invariants env bug repo auto j c0
    exact ⟨h.2.2.1, h.2.2.2⟩

/-- An environment whose fix-generation call raises. -/
def envFixFails : ToolEnv :=
  { locate := .ok (JVal.obj [("search_stats", JVal.obj [("total_found", JVal.num 1)])]),
    fix := .error "codestral api error",
    review := .ok (JVal.obj [("approved", JVal.bool true)]),
    patch := .ok (JVal.obj [("applied", JVal.bool true)]) }

/-- Per-unit environments: the first unit's fix call fails, every other
unit's calls succeed. -/
def envfMixed : Nat → ToolEnv :=
  fun i => if i = 1 then envFixFails else envAllOk

/-- A fresh solver instance. -/
def solver0 : Solver :=
  { session_id := "sess", conversation_history := [] }

/-- C6 witness: the theorem at a concrete two-unit report whose first
unit's fix call fails while the second unit completes. -/
theorem C6_witness :
    (((debug_repository_issue envfMixed solver0
        (some "1. login page crashes hard\n2. export stays very slow") none true
        0).1.results.getD []).length
      = (splitBugs "1. login page crashes hard\n2. export stays very slow").length) ∧
    (∀ r ∈ (debug_repository_issue envfMixed solver0
        (some "1. login page crashes hard\n2. export stays very slow") none true
        0).1.results.getD [],
      (r.status = "completed" ∨ r.status = "no_relevant_code_found" ∨
       r.status = "rejected_by_human" ∨ r.status = "failed") ∧
      (∀ s ∈ r.steps, s.status = "failed" →
        r.status = "failed" ∧ r.error = s.error ∧ r.steps.getLast? = some s)) :=
  C6_capability_failure_isolation envfMixed solver0
    "1. login page crashes hard\n2. export stays very slow" none true 0

/-- C7: `debug_repository_issue` always returns the workflow record (the
model is a total function: nothing propagates), the record always carries
the recorded start time and a definite terminal status; and when the
splitting step raises (the one source site that can: a non-string report,
whose `.strip()` raises), the orchestrator's handler sets status failed,
stores the error text and an end timestamp on the record it returns. -/
theorem C7_workflow_error_contained (envf : Nat → ToolEnv) (solver : Solver)
    (bug_description : Option String) (repo : Option String) (auto : Bool) (c : Nat) :
    ((debug_repository_issue envf solver bug_description repo auto c).1.start_time = c) ∧
    ((debug_repository_issue envf solver bug_description repo auto c).1.status
        = "completed" ∨
     (debug_repository_issue envf solver bug_description repo auto c).1.status
        = "failed") ∧
    (bug_description = none →
      (debug_repository_issue envf solver bug_description repo auto c).1.status
          = "failed" ∧
      (debug_repository_issue envf solver bug_description repo auto c).1.error
          = some noneStripError ∧
      ∃ t, (debug_repository_issue envf solver bug_description repo auto c).1.end_time
          = some t) := by
  cases bug_description with
  | none =>
    refine ⟨?_, ?_, ?_⟩ <;>
      simp [debug_repository_issue, analyze_and_separate_bugs]
  | some s =>
    refine ⟨?_, ?_, ?_⟩ <;>
      simp [debug_repository_issue, analyze_and_separate_bugs]

/-- C7 witness: the theorem at a concrete non-string report (`None`),
the input on which the splitting step raises. -/
theorem C7_witness :
    ((debug_repository_issue (fun _ => envAllOk) solver0 none none false 0).1.start_time
        = 0) ∧
    ((debug_repository_issue (fun _ => envAllOk) solver0 none none false 0).1.status
        = "failed") ∧
    ((debug_repository_issue (fun _ => envAllOk) solver0 none none false 0).1.error
        = some noneStripError) ∧
    (∃ t, (debug_repository_issue (fun _ => envAllOk) solver0 none none false
        0).1.end_time = some t) := by
  have h := C7_workflow_error_contained (fun _ => envAllOk) solver0 none none false 0
  exact ⟨h.1, (h.2.2 rfl).1, (h.2.2 rfl).2.1, (h.2.2 rfl).2.2⟩

/-! ## Indexing entry point (claim C8) -/

/-- C8: `index_repository` is total towards its caller: on a successful
indexer call it returns that result, and on any raised error it returns
the structured failure object carrying success = false, the error text
and a timestamp — it never propagates the exception. -/
theorem C8_index_repository_isolated (outcome : Except String JVal) (c : Nat) :
    (∀ r, outcome = .ok r → index_repository outcome c = r) ∧
    (∀ e, outcome = .error e → index_repository outcome c =
      JVal.obj [("success", JVal.bool false), ("error", JVal.str e),
        ("timestamp", JVal.str (Nat.repr c))]) := by
  constructor
  · intro r h; subst h; rfl
  · intro e h; subst h; rfl

/-- C8 witness: the theorem at a concrete failing indexer call. -/
theorem C8_witness :
    index_repository (.error "disk full") 7 =
      JVal.obj [("success", JVal.bool false), ("error", JVal.str "disk full"),
        ("timestamp", JVal.str (Nat.repr 7))] :=
  (C8_index_repository_isolated (.error "disk full") 7).2 "disk full" rfl

/-! ## Workflow id derivation (claim C9)

The id embeds `len(conversation_history)`; to reason about id reuse we
need that the decimal rendering of the counter is injective. -/

theorem toDigitsCore_append (b : Nat) :
    ∀ (fuel n : Nat) (ds : List Char),
      Nat.toDigitsCore b fuel n ds = Nat.toDigitsCore b fuel n [] ++ ds := by
  intro fuel
  induction fuel with
  | zero => intro n ds; simp [Nat.toDigitsCore]
  | succ f ih =>
    intro n ds
    simp only [Nat.toDigitsCore]
    by_cases h : n / b = 0
    · simp [h]
    · simp only [h, if_false]
      rw [ih (n / b) (Nat.digitChar (n % b) :: ds), ih (n / b) [Nat.digitChar (n % b)]]
      simp

theorem toDigitsCore_eq_digits :
    ∀ (n : Nat), 0 < n → ∀ fuel, n < fuel →
      Nat.toDigitsCore 10 fuel n [] =
        ((Nat.digits 10 n).map Nat.digitChar).reverse := by
  intro n
  induction n using Nat.strong_induction_on with
  | _ n ih =>
    intro hn fuel hfuel
    match fuel, hfuel with
    | f + 1, hf =>
      rw [Nat.digits_def' (by norm_num : (1:Nat) < 10) hn]
      simp only [Nat.toDigitsCore, List.map_cons, List.reverse_cons]
      by_cases h : n / 10 = 0
      · simp [h]
      · have hpos : 0 < n / 10 := Nat.pos_of_ne_zero h
        have hlt : n / 10 < n := Nat.div_lt_self hn (by norm_num)
        have hfl : n / 10 < f := lt_of_lt_of_le hlt (Nat.lt_succ_iff.mp hf)
        simp only [h, if_false]
        rw [toDigitsCore_append, ih (n / 10) hlt hpos f hfl]

theorem digitChar_inj_lt :
    ∀ a, a < 10 → ∀ b, b < 10 → Nat.digitChar a = Nat.digitChar b → a = b := by decide

theorem map_digitChar_inj :
    ∀ (l1 l2 : List Nat), (∀ x ∈ l1, x < 10) → (∀ x ∈ l2, x < 10) →
      l1.map Nat.digitChar = l2.map Nat.digitChar → l1 = l2 := by
  intro l1
  induction l1 with
  | nil =>
    intro l2 _ _ h
    cases l2 with
    | nil => rfl
    | cons b t2 => simp at h
  | cons a t ih =>
    intro l2 h1 h2 h
    cases l2 with
    | nil => simp at h
    | cons b t2 =>
      simp only [List.map_cons, List.cons.injEq] at h
      have hab : a = b :=
        digitChar_inj_lt a (h1 a (by simp)) b (h2 b (by simp)) h.1
      subst hab
      rw [ih t2 (fun x hx => h1 x (by simp [hx])) (fun x hx => h2 x (by simp [hx])) h.2]

theorem toDigits_ten_inj (m n : Nat) (h : Nat.toDigits 10 m = Nat.toDigits 10 n) :
    m = n := by
  have key : ∀ k, 0 < k →
      Nat.toDigits 10 k = ((Nat.digits 10 k).map Nat.digitChar).reverse :=
    fun k hk => toDigitsCore_eq_digits k hk (k + 1) (Nat.lt_succ_self k)
  have digitsEq : ∀ p q : Nat, 0 < p → 0 < q →
      Nat.toDigits 10 p = Nat.toDigits 10 q → p = q := by
    intro p q hp hq hpq
    rw [key p hp, key q hq] at hpq
    have hrev := List.reverse_injective hpq
    have hd := map_digitChar_inj (Nat.digits 10 p) (Nat.digits 10 q)
      (fun x hx => Nat.digits_lt_base (by norm_num) hx)
      (fun x hx => Nat.digits_lt_base (by norm_num) hx) hrev
    have := congrArg (Nat.ofDigits 10) hd
    rwa [Nat.ofDigits_digits, Nat.ofDigits_digits] at this
  have zeroCase : ∀ q : Nat, 0 < q → Nat.toDigits 10 0 ≠ Nat.toDigits 10 q := by
    intro q hq hzq
    rw [key q hq, show Nat.toDigits 10 0 = ['0'] from rfl] at hzq
    have hrev : (Nat.digits 10 q).map Nat.digitChar = ['0'] := by
      have := congrArg List.reverse hzq
      simpa using this.symm
    have hdig : Nat.digits 10 q = [0] := by
      apply map_digitChar_inj (Nat.digits 10 q) [0]
        (fun x hx => Nat.digits_lt_base (by norm_num) hx)
        (fun x hx => by simp at hx; omega)
      simpa [Nat.digitChar] using hrev
    have := congrArg (Nat.ofDigits 10) hdig
    rw [Nat.ofDigits_digits] at this
    simp [Nat.ofDigits] at this
    omega
  rcases Nat.eq_zero_or_pos m with hm | hm <;> rcases Nat.eq_zero_or_pos n with hn | hn
  · omega
  · exact absurd h (hm ▸ zeroCase n hn)
  · exact absurd h.symm (hn ▸ zeroCase m hm)
  · exact digitsEq m n hm hn h

/-- Injectivity of the decimal rendering used by the id format string. -/
theorem repr_data_inj (m n : Nat) (h : (Nat.repr m).data = (Nat.repr n).data) :
    m = n :=
  toDigits_ten_inj m n h

/-- Two ids produced by the format string with the same session id but
different counters are different strings. -/
theorem mkWorkflowId_inj_counter (sid : String) (m n : Nat)
    (h : mkWorkflowId sid m = mkWorkflowId sid n) : m = n := by
  apply repr_data_inj
  have hd := congrArg String.data h
  simp only [mkWorkflowId, String.data_append, List.append_assoc] at hd
  exact List.append_cancel_left (List.append_cancel_left (List.append_cancel_left hd))

/-- C9 counterexample: two successive invocations on one solver instance
CAN reuse a workflow id. The counter is `len(conversation_history)`, and
the history is appended only on the success path; after a failed
invocation (here: a non-string report) the next invocation reuses the
same counter, so both records carry the identical workflow id. -/
theorem C9_counterexample :
    (debug_repository_issue (fun _ => envAllOk)
        ((debug_repository_issue (fun _ => envAllOk) solver0 none none false 0).2.1)
        none none false 10).1.workflow_id
      = (debug_repository_issue (fun _ => envAllOk) solver0 none none false
          0).1.workflow_id := by decide

/-- C9 (amended): the workflow id is derived from the session id plus the
count of prior invocations recorded in the history — i.e. prior
SUCCESSFUL invocations, since only the success path appends — so an
invocation that completes successfully is never followed by an
invocation reusing its workflow id (a failed one can be; see the
counterexample). -/
theorem C9_workflow_id_amended (envf1 envf2 : Nat → ToolEnv) (solver : Solver)
    (d1 d2 : Option String) (r1 r2 : Option String) (a1 a2 : Bool) (c1 c2 : Nat)
    (hsucc : (debug_repository_issue envf1 solver d1 r1 a1 c1).1.status = "completed") :
    (debug_repository_issue envf2
        ((debug_repository_issue envf1 solver d1 r1 a1 c1).2.1) d2 r2 a2 c2).1.workflow_id
      ≠ (debug_repository_issue envf1 solver d1 r1 a1 c1).1.workflow_id := by
  cases d1 with
  | none =>
    simp [debug_repository_issue, analyze_and_separate_bugs] at hsucc
  | some s =>
    intro h
    cases d2 with
    | none =>
      simp only [debug_repository_issue, analyze_and_separate_bugs] at h
      have := mkWorkflowId_inj_counter solver.session_id _ _ h
      simp at this
    | some s2 =>
      simp only [debug_repository_issue, analyze_and_separate_bugs] at h
      have := mkWorkflowId_inj_counter solver.session_id _ _ h
      simp at this

/-- C9 witness: the amended theorem at a concrete pair of invocations
whose first run completes successfully. -/
theorem C9_witness :
    (debug_repository_issue (fun _ => envAllOk)
        ((debug_repository_issue (fun _ => envAllOk) solver0
            (some "application crashes on startup") none false 0).2.1)
        (some "application crashes on startup") none false 20).1.workflow_id
      ≠ (debug_repository_issue (fun _ => envAllOk) solver0
          (some "application crashes on startup") none false 0).1.workflow_id :=
  C9_workflow_id_amended (fun _ => envAllOk) (fun _ => envAllOk) solver0
    (some "application crashes on startup") (some "application crashes on startup")
    none none false false 0 20 (by decide)
